import Mathlib

/-
Verification of the semantic-framework pipeline engine.

The embedding follows src/semantiva/payload_operations/pipeline.py
(the Pipeline class: node appending with topology validation, the
run-time dispatch loop, inspection and probe-result retrieval).
The value model, the node variants and the slicing strategy live in
modules that are not part of the source tree (nodes.py, data_types.py,
context_types.py); those are modelled from the specification, with the
variant-selection conditions pinned down by the callers and tests that
are part of the source tree (Pipeline.inspect, Pipeline.get_probe_results,
tests/test_pipeline_slicing.py).
-/

namespace Semantiva

/-- Modelled from the spec: the values stored in context records,
parameter maps and probe ledgers (missing context_types module).
A value is an opaque scalar or an ordered list of per-slice values. -/
inductive PVal where
  | num : Int → PVal
  | list : List PVal → PVal

/-- Modelled from the spec: runtime data values (missing data_types
module).  A value is a scalar unit of domain data carrying its concrete
type tag, or a data collection carrying the concrete container type tag
and its ordered elements. -/
inductive DataV (C : Type) where
  | scalar : C → Int → DataV C
  | coll : C → List (DataV C) → DataV C

/-- Concrete runtime type of a data value (Python type(x)). -/
def DataV.rtype {C : Type} : DataV C → C
  | .scalar ty _ => ty
  | .coll ty _ => ty

/-- Whether the runtime value is a DataCollectionType instance. -/
def DataV.isColl {C : Type} : DataV C → Bool
  | .scalar _ _ => false
  | .coll _ _ => true

/-- Modelled from the spec: the class-hierarchy facts the engine
queries about data type tags: issubclass, and, for container classes,
the declared element type (collection_base_type); elemOf returns none
on classes that are not DataCollectionType subclasses. -/
structure TypeModel (C : Type) where
  sub : C → C → Bool
  elemOf : C → Option C

/-- Modelled from the spec: a context record is a mapping from string
keys to values (missing context_types module). -/
abbrev Record := List (String × PVal)

/-- Lookup of a key in a context record (ContextType.get_value). -/
def Record.getVal : Record → String → Option PVal
  | [], _ => none
  | (k, v) :: r, name => if k = name then some v else Record.getVal r name

/-- Store a value under a key in a context record, replacing an existing
binding for that key and appending otherwise. -/
def Record.setVal : Record → String → PVal → Record
  | [], name, v => [(name, v)]
  | (k, w) :: r, name, v =>
    if k = name then (k, v) :: r else (k, w) :: Record.setVal r name v

/-- Modelled from the spec: a context is either a single scalar
ContextType record or a ContextCollectionType, an ordered sequence of
records. -/
inductive Ctx where
  | record : Record → Ctx
  | collection : List Record → Ctx

/-- Modelled from the spec: the operation contract of a data algorithm:
declared input type, declared output type, declared parameter names and
the data transformation itself. -/
structure AlgorithmOp (C : Type) where
  name : String
  inTy : C
  outTy : C
  params : List String
  apply : DataV C → Record → DataV C

/-- Modelled from the spec: the operation contract of a data probe:
declared input type, declared parameter names, and the observation,
which produces a value without changing the data. -/
structure ProbeOp (C : Type) where
  name : String
  inTy : C
  params : List String
  applyP : DataV C → Record → PVal

/-- Modelled from the spec: the four node variants of the missing nodes
module.  Which probe variant carries the context keyword is fixed by the
source: Pipeline.inspect reads context_keyword from
ProbeContextInjectorNode instances, Pipeline.get_probe_results reads the
ledger of ProbeResultCollectorNode instances, and
test_pipeline_slicing_with_single_context shows the keyword-configured
probe writing into the context while the keywordless probe's results are
returned by get_probe_results.  The collector variant carries its ledger
(ordered run records); every data node carries its explicit parameter
configuration and its context operation (ContextPassthrough is id). -/
inductive Node (C : Type) where
  | algorithmNode : AlgorithmOp C → Record → (Record → Record) → Node C
  | probeContextInjector : ProbeOp C → Record → String → (Record → Record) → Node C
  | probeResultCollector : ProbeOp C → Record → List PVal → (Record → Record) → Node C
  | contextNode : String → (Record → Record) → Node C

/-- Declared input data type of a node's operation; context-only nodes
declare none. -/
def nodeInTy {C : Type} : Node C → Option C
  | .algorithmNode op _ _ => some op.inTy
  | .probeContextInjector op _ _ _ => some op.inTy
  | .probeResultCollector op _ _ _ => some op.inTy
  | .contextNode _ _ => none

/-- Class name of the node's operation, as used in error messages. -/
def opName {C : Type} : Node C → String
  | .algorithmNode op _ _ => op.name
  | .probeContextInjector op _ _ _ => op.name
  | .probeResultCollector op _ _ _ => op.name
  | .contextNode nm _ => nm

/-- Whether the node is a ContextNode (never constrains the data type). -/
def isContextN {C : Type} : Node C → Bool
  | .contextNode _ _ => true
  | _ => false

/-- Whether the node is an AlgorithmNode (the only type-constraining
variant). -/
def isAlgorithmN {C : Type} : Node C → Bool
  | .algorithmNode _ _ _ => true
  | _ => false

/-- Declared operation parameter names of a node
(get_operation_parameter_names in Pipeline.inspect). -/
def opParamsOf {C : Type} : Node C → List String
  | .algorithmNode op _ _ => op.params
  | .probeContextInjector op _ _ _ => op.params
  | .probeResultCollector op _ _ _ => op.params
  | .contextNode _ _ => []

/-- Explicitly configured parameters of a node (operation_config in
Pipeline.inspect). -/
def configOf {C : Type} : Node C → Record
  | .algorithmNode _ cfg _ => cfg
  | .probeContextInjector _ cfg _ _ => cfg
  | .probeResultCollector _ cfg _ _ => cfg
  | .contextNode _ _ => []

/-- Context keyword of a probe-context-injector node, none otherwise. -/
def injectorKw {C : Type} : Node C → Option String
  | .probeContextInjector _ _ kw _ => some kw
  | _ => none

/-- Ledger (ordered run records) of a probe-result-collector node. -/
def ledgerOf {C : Type} : Node C → List PVal
  | .probeResultCollector _ _ L _ => L
  | _ => []

/-- Errors surfaced by construction and by a run, carrying the
diagnostic detail the source interpolates into its messages. -/
inductive PErr (C : Type) where
  | topology (lastOp newOp : String) (outTy inTy : C)
  | topologyMismatch (opN : String) (expected received : C)
  | shapeMismatch (dataLen ctxLen : Nat)
  | missingParam (param opN : String)
deriving DecidableEq

/-- Error-propagating map over a list: the per-element computation of a
sliced node call, aborting on the first failing element. -/
def mapExcept {α β ε : Type} (g : α → Except ε β) : List α → Except ε (List β)
  | [] => .ok []
  | a :: as =>
    match g a with
    | .error e => .error e
    | .ok b =>
      match mapExcept g as with
      | .error e => .error e
      | .ok bs => .ok (b :: bs)

/-- Modelled from the spec: parameter resolution of the Execution
Engine (section 4.3): one declared parameter name resolves to the
explicit configuration value if present, else to the context value of
the same name. -/
def lookupParam (cfg ctx : Record) (name : String) : Option PVal :=
  match Record.getVal cfg name with
  | some v => some v
  | none => Record.getVal ctx name

/-- Resolution of the full declared parameter list of one operation,
failing on the first name absent from both sources. -/
def resolveParams (declared : List String) (cfg ctx : Record) (opN : String)
    {C : Type} : Except (PErr C) Record :=
  match declared with
  | [] => .ok []
  | name :: rest =>
    match lookupParam cfg ctx name with
    | none => .error (.missingParam name opN)
    | some v =>
      match resolveParams rest cfg ctx opN with
      | .error e => .error e
      | .ok ps => .ok ((name, v) :: ps)

/-- Lookup used for parameter resolution in a non-sliced call: a scalar
record resolves by key; a context collection does not resolve scalar
lookups. -/
def ctxLookup : Ctx → String → Option PVal
  | .record r, name => Record.getVal r name
  | .collection _, _ => none

/-- Parameter resolution against a whole context (non-sliced call). -/
def resolveParamsCtx (declared : List String) (cfg : Record) (c : Ctx)
    (opN : String) {C : Type} : Except (PErr C) Record :=
  match c with
  | .record r => resolveParams declared cfg r opN
  | .collection _ => resolveParams declared cfg [] opN

/-- Apply a node's context operation to a context, shape-preserving. -/
def ctxApply (f : Record → Record) : Ctx → Ctx
  | .record r => .record (f r)
  | .collection rs => .collection (rs.map f)

/-- Store a probe value under a keyword in a context (the
probe-context-injector write). -/
def ctxInject (f : Record → Record) (kw : String) (v : PVal) : Ctx → Ctx
  | .record r => .record ((f r).setVal kw v)
  | .collection rs => .collection (rs.map (fun r => (f r).setVal kw v))

/-- Modelled from the spec: the non-sliced (exact-match) node call of
section 4.4/4.5: the operation is applied once to the whole data object;
an algorithm transforms the data, a probe leaves it unchanged; the
injector variant stores the single probe value into the context under
its keyword, the collector variant appends the single value as one run
record to its ledger. -/
def nodeDirect {C : Type} (tm : TypeModel C) (n : Node C) (d : DataV C)
    (c : Ctx) : Except (PErr C) (Node C × DataV C × Ctx) :=
  match n with
  | .algorithmNode op cfg f =>
    match resolveParamsCtx op.params cfg c op.name with
    | .error e => .error e
    | .ok ps => .ok (.algorithmNode op cfg f, op.apply d ps, ctxApply f c)
  | .probeContextInjector op cfg kw f =>
    match resolveParamsCtx op.params cfg c op.name with
    | .error e => .error e
    | .ok ps =>
      .ok (.probeContextInjector op cfg kw f, d, ctxInject f kw (op.applyP d ps) c)
  | .probeResultCollector op cfg L f =>
    match resolveParamsCtx op.params cfg c op.name with
    | .error e => .error e
    | .ok ps =>
      .ok (.probeResultCollector op cfg (L ++ [op.applyP d ps]) f, d, ctxApply f c)
  | .contextNode nm f => .ok (.contextNode nm f, d, ctxApply f c)

/-- Modelled from the spec: sliced node call with a scalar context
(section 4.4): every element is processed against the same unmutated
record; only the returned data elements are collected, reassembled into
the same concrete container type; the context handed to the next node is
the original scalar record, except that the probe-context-injector
writes the ordered per-slice value list into it under its keyword; the
collector appends that list as one run record to its ledger. -/
def sliceScalar {C : Type} (tm : TypeModel C) (n : Node C) (cty : C)
    (elems : List (DataV C)) (r : Record) :
    Except (PErr C) (Node C × DataV C × Ctx) :=
  match n with
  | .algorithmNode op cfg f =>
    match mapExcept
        (fun e => (resolveParams op.params cfg r op.name).map (op.apply e)) elems with
    | .error e => .error e
    | .ok es => .ok (.algorithmNode op cfg f, .coll cty es, .record r)
  | .probeContextInjector op cfg kw f =>
    match mapExcept
        (fun e => (resolveParams op.params cfg r op.name).map (op.applyP e)) elems with
    | .error e => .error e
    | .ok vs =>
      .ok (.probeContextInjector op cfg kw f, .coll cty elems,
           .record (r.setVal kw (.list vs)))
  | .probeResultCollector op cfg L f =>
    match mapExcept
        (fun e => (resolveParams op.params cfg r op.name).map (op.applyP e)) elems with
    | .error e => .error e
    | .ok vs =>
      .ok (.probeResultCollector op cfg (L ++ [PVal.list vs]) f, .coll cty elems,
           .record r)
  | .contextNode nm f => .ok (.contextNode nm f, .coll cty elems, .record r)

/-- Modelled from the spec: sliced node call with a context collection
(section 4.4): element i of the data is paired with record i of the
context, the node is called once per pair, and the returned elements and
records are reassembled into a collection of the same concrete container
type and a context collection; the injector writes each per-pair probe
value into that pair's record, the collector appends the ordered list of
per-pair values as one run record to its ledger.  Callers have already
checked that the two lengths agree. -/
def sliceCollection {C : Type} (tm : TypeModel C) (n : Node C) (cty : C)
    (elems : List (DataV C)) (rs : List Record) :
    Except (PErr C) (Node C × DataV C × Ctx) :=
  match n with
  | .algorithmNode op cfg f =>
    match mapExcept
        (fun p => (resolveParams op.params cfg p.2 op.name).map (op.apply p.1))
        (elems.zip rs) with
    | .error e => .error e
    | .ok es =>
      .ok (.algorithmNode op cfg f, .coll cty es, .collection (rs.map f))
  | .probeContextInjector op cfg kw f =>
    match mapExcept
        (fun p => (resolveParams op.params cfg p.2 op.name).map (op.applyP p.1))
        (elems.zip rs) with
    | .error e => .error e
    | .ok vs =>
      .ok (.probeContextInjector op cfg kw f, .coll cty elems,
           .collection ((rs.zip vs).map (fun q => (f q.1).setVal kw q.2)))
  | .probeResultCollector op cfg L f =>
    match mapExcept
        (fun p => (resolveParams op.params cfg p.2 op.name).map (op.applyP p.1))
        (elems.zip rs) with
    | .error e => .error e
    | .ok vs =>
      .ok (.probeResultCollector op cfg (L ++ [PVal.list vs]) f, .coll cty elems,
           .collection (rs.map f))
  | .contextNode nm f =>
    .ok (.contextNode nm f, .coll cty elems, .collection (rs.map f))

/-- Modelled from the spec: the slicing algorithm of one node call
(section 4.4): exact match (equal type or subtype) processes the whole
object in a single call; else a data collection whose element type
equals the declared input type is processed element-wise, with the
context collection length checked against the data length; else the call
fails with a TopologyMismatchError.  Context-only nodes have no declared
data type and pass the data through. -/
def nodeProcess {C : Type} [DecidableEq C] (tm : TypeModel C) (n : Node C)
    (d : DataV C) (c : Ctx) : Except (PErr C) (Node C × DataV C × Ctx) :=
  match nodeInTy n with
  | none => nodeDirect tm n d c
  | some I =>
    if d.rtype = I ∨ tm.sub d.rtype I = true then nodeDirect tm n d c
    else
      match d with
      | .coll cty elems =>
        if tm.elemOf cty = some I then
          match c with
          | .record r => sliceScalar tm n cty elems r
          | .collection rs =>
            if rs.length = elems.length then sliceCollection tm n cty elems rs
            else .error (.shapeMismatch elems.length rs.length)
        else .error (.topologyMismatch (opName n) I cty)
      | .scalar ty _ => .error (.topologyMismatch (opName n) I ty)

/-- The run loop of Pipeline._process: for each node in order, check the
expected input type against the current data (equal type, collection of
the expected element type, or subclass), call the node on success and
adopt its returned payload, and raise the incompatible-data-type error
otherwise. -/
def runNodes {C : Type} [DecidableEq C] (tm : TypeModel C) :
    List (Node C) → DataV C → Ctx →
    Except (PErr C) (List (Node C) × DataV C × Ctx)
  | [], d, c => .ok ([], d, c)
  | n :: rest, d, c =>
    match nodeInTy n with
    | none =>
      match nodeProcess tm n d c with
      | .error e => .error e
      | .ok x =>
        match runNodes tm rest x.2.1 x.2.2 with
        | .error e => .error e
        | .ok y => .ok (x.1 :: y.1, y.2)
    | some I =>
      if d.rtype = I ∨ (d.isColl = true ∧ tm.elemOf d.rtype = some I)
          ∨ tm.sub d.rtype I = true then
        match nodeProcess tm n d c with
        | .error e => .error e
        | .ok x =>
          match runNodes tm rest x.2.1 x.2.2 with
          | .error e => .error e
          | .ok y => .ok (x.1 :: y.1, y.2)
      else .error (.topologyMismatch (opName n) I d.rtype)

/-- The pipeline: an ordered list of nodes (Pipeline.nodes). -/
structure Pipeline (C : Type) where
  nodes : List (Node C)

/-- Pipeline.process: run all nodes in order on the payload, returning
the pipeline with its updated per-node state together with the final
data and context. -/
def Pipeline.process {C : Type} [DecidableEq C] (p : Pipeline C)
    (tm : TypeModel C) (d : DataV C) (c : Ctx) :
    Except (PErr C) (Pipeline C × DataV C × Ctx) :=
  match runNodes tm p.nodes d c with
  | .error e => .error e
  | .ok x => .ok (⟨x.1⟩, x.2)

/-- The most recent type-constraining node, i.e. the last AlgorithmNode
of the list (Pipeline._add_node's reversed search). -/
def lastTypeConstraining {C : Type} (nodes : List (Node C)) : Option (Node C) :=
  nodes.reverse.find? isAlgorithmN

/-- Pipeline._add_node: append unconditionally when no AlgorithmNode
exists yet or the new node is a ContextNode; else accept when the last
constraining output type is a collection class whose element type equals
the new input type, or when the two types are subclass-related in either
direction; otherwise fail with the topology error naming both operation
classes and both types. -/
def addNode {C : Type} [DecidableEq C] (tm : TypeModel C)
    (nodes : List (Node C)) (n : Node C) :
    Except (PErr C) (List (Node C)) :=
  match lastTypeConstraining nodes with
  | none => .ok (nodes ++ [n])
  | some ln =>
    if isContextN n = true then .ok (nodes ++ [n])
    else
      match nodeInTy n with
      | none => .ok (nodes ++ [n])
      | some I =>
        match ln with
        | .algorithmNode op _ _ =>
          if tm.elemOf op.outTy = some I then .ok (nodes ++ [n])
          else if tm.sub op.outTy I = true ∨ tm.sub I op.outTy = true then
            .ok (nodes ++ [n])
          else .error (.topology op.name (opName n) op.outTy I)
        | _ => .ok (nodes ++ [n])

/-- Modelled from the spec: a declarative node configuration: the
operation reference, the explicit parameter map, the optional
context-storage keyword and the optional context operation. -/
inductive OpRef (C : Type) where
  | alg : AlgorithmOp C → OpRef C
  | probe : ProbeOp C → OpRef C
  | ctxOnly : String → OpRef C

/-- Modelled from the spec: one node configuration dictionary. -/
structure NodeConfig (C : Type) where
  operation : OpRef C
  parameters : Record
  contextKeyword : Option String
  contextOperation : Record → Record

/-- Modelled from the spec: node_factory of the missing nodes module.
An algorithm yields an AlgorithmNode; a probe with a context keyword
yields the probe-context-injector variant and without one the
probe-result-collector variant (the assignment fixed by
Pipeline.inspect, Pipeline.get_probe_results and
test_pipeline_slicing_with_single_context); a context operation yields a
ContextNode. -/
def node_factory {C : Type} (cfg : NodeConfig C) : Node C :=
  match cfg.operation with
  | .alg op => .algorithmNode op cfg.parameters cfg.contextOperation
  | .probe op =>
    match cfg.contextKeyword with
    | some kw => .probeContextInjector op cfg.parameters kw cfg.contextOperation
    | none => .probeResultCollector op cfg.parameters [] cfg.contextOperation
  | .ctxOnly nm => .contextNode nm cfg.contextOperation

/-- The loop of Pipeline._initialize_nodes: build each configured node
with node_factory and append it to the accumulated node list with the
topology check, stopping at the first construction error. -/
def initializeNodesFrom {C : Type} [DecidableEq C] (tm : TypeModel C)
    (acc : List (Node C)) :
    List (NodeConfig C) → Except (PErr C) (List (Node C))
  | [] => .ok acc
  | cfg :: rest =>
    match addNode tm acc (node_factory cfg) with
    | .error e => .error e
    | .ok acc2 => initializeNodesFrom tm acc2 rest

/-- Pipeline._initialize_nodes: run the construction loop starting from
the empty node list. -/
def initializeNodes {C : Type} [DecidableEq C] (tm : TypeModel C)
    (cfgs : List (NodeConfig C)) : Except (PErr C) (List (Node C)) :=
  initializeNodesFrom tm [] cfgs

/-- Pipeline construction: initialize the nodes from the configuration
list, failing the whole construction on the first topology error. -/
def buildPipeline {C : Type} [DecidableEq C] (tm : TypeModel C)
    (cfgs : List (NodeConfig C)) : Except (PErr C) (Pipeline C) :=
  match initializeNodes tm cfgs with
  | .error e => .error e
  | .ok ns => .ok ⟨ns⟩

/-- Pipeline.get_probe_results: every probe-result-collector node's
ledger, keyed by its position and operation class name. -/
def getProbeResults {C : Type} (p : Pipeline C) : List (String × List PVal) :=
  (List.range p.nodes.length).filterMap (fun i =>
    match p.nodes.get? i with
    | some (.probeResultCollector op _ L _) =>
      some ("Node " ++ toString (i + 1) ++ "/" ++ op.name, L)
    | _ => none)

/-- The accumulation loop of Pipeline.inspect: walk the nodes keeping
the union of context-sourced parameter names (declared names minus
explicitly configured names) and the set of context keywords of
probe-context-injector nodes. -/
def inspectLoop {C : Type} :
    List (Node C) → Finset String × Finset String → Finset String × Finset String
  | [], acc => acc
  | n :: rest, acc =>
    let ctxParams := (opParamsOf n).toFinset \ ((configOf n).map Prod.fst).toFinset
    let inj := match injectorKw n with
               | some kw => insert kw acc.2
               | none => acc.2
    inspectLoop rest (acc.1 ∪ ctxParams, inj)

/-- The final context-parameters-needed set reported by
Pipeline.inspect: the accumulated context-sourced names minus the
accumulated injector keywords, computed after the whole walk. -/
def neededContextParams {C : Type} (nodes : List (Node C)) : Finset String :=
  (inspectLoop nodes (∅, ∅)).1 \ (inspectLoop nodes (∅, ∅)).2

/-- Union over a node list of the context-sourced parameter-name sets,
i.e. each node's declared names minus its explicitly configured names. -/
def allCtxOf {C : Type} : List (Node C) → Finset String
  | [] => ∅
  | n :: rest =>
    ((opParamsOf n).toFinset \ ((configOf n).map Prod.fst).toFinset) ∪ allCtxOf rest

/-- Union over a node list of the context keywords of its
probe-context-injector nodes. -/
def injKwsOf {C : Type} : List (Node C) → Finset String
  | [] => ∅
  | n :: rest =>
    (match injectorKw n with
     | some kw => {kw}
     | none => ∅) ∪ injKwsOf rest

/-- One per-element step of a sliced node call, pairing one data element
with one context record: the per-pair behavior of section 4.4's
collection-broadcast path. -/
def elemNode {C : Type} (tm : TypeModel C) (n : Node C) (e : DataV C)
    (r : Record) : Except (PErr C) (DataV C × Record) :=
  match n with
  | .algorithmNode op cfg f =>
    (resolveParams op.params cfg r op.name).map (fun ps => (op.apply e ps, f r))
  | .probeContextInjector op cfg kw f =>
    (resolveParams op.params cfg r op.name).map
      (fun ps => (e, (f r).setVal kw (op.applyP e ps)))
  | .probeResultCollector op cfg _ f =>
    (resolveParams op.params cfg r op.name).map (fun _ => (e, f r))
  | .contextNode _ f => .ok (e, f r)

/-- The per-element chain of a whole pipeline: one data element and its
paired record pushed through every node's per-element step in order. -/
def elemChain {C : Type} (tm : TypeModel C) :
    List (Node C) → DataV C → Record → Except (PErr C) (DataV C × Record)
  | [], e, r => .ok (e, r)
  | n :: rest, e, r =>
    match elemNode tm n e r with
    | .error err => .error err
    | .ok p => elemChain tm rest p.1 p.2

/-- A node is element-wise for a collection class when its declared
input type is exactly the element type of the collection class and the
collection class itself neither equals nor subclasses that input type,
so that a run on such a collection takes the sliced path. -/
def SlicesOn {C : Type} (tm : TypeModel C) (cty : C) (n : Node C) : Prop :=
  ∃ I, nodeInTy n = some I ∧ tm.elemOf cty = some I ∧ cty ≠ I ∧
    tm.sub cty I = false

/-- A small concrete class universe for concrete runs: an image type,
an image-stack collection type whose element type is the image type, a
numeric type and an unrelated type. -/
inductive Cls where
  | img
  | stack
  | numT
  | other
deriving DecidableEq

/-- Concrete type model over Cls: no nontrivial subclassing, and the
stack class is the one collection class, with image elements. -/
def tmW : TypeModel Cls :=
  ⟨fun a b => decide (a = b),
   fun c => match c with
            | Cls.stack => some Cls.img
            | _ => none⟩

/-- Concrete image-to-image algorithm declaring one parameter. -/
def addOpW : AlgorithmOp Cls :=
  ⟨"ImageAddition", Cls.img, Cls.img, ["image_to_add"],
   fun d _ => match d with
              | .scalar t v => .scalar t (v + 1)
              | x => x⟩

/-- Concrete image probe with no parameters. -/
def probeW : ProbeOp Cls :=
  ⟨"BasicImageProbe", Cls.img, [], fun d _ =>
    match d with
    | .scalar _ v => .num v
    | .coll _ _ => .num 0⟩

/-- Concrete stack-consuming algorithm, for runtime mismatch runs. -/
def projOpW : AlgorithmOp Cls :=
  ⟨"StackToImageMeanProjector", Cls.stack, Cls.img, [],
   fun d _ => match d with
              | .coll _ (e :: _) => e
              | x => x⟩

/-- Concrete numeric algorithm whose input type is unrelated to the
image types, for construction-error runs. -/
def numOpW : AlgorithmOp Cls :=
  ⟨"FitModel", Cls.numT, Cls.numT, [], fun d _ => d⟩

/-- Concrete algorithm node with its parameter explicitly configured. -/
def nodeA : Node Cls :=
  .algorithmNode addOpW [("image_to_add", PVal.num 1)] id

example :
    runNodes tmW [nodeA]
      (DataV.coll Cls.stack [DataV.scalar Cls.img 1, DataV.scalar Cls.img 2])
      (Ctx.record []) =
    .ok ([nodeA],
         DataV.coll Cls.stack [DataV.scalar Cls.img 2, DataV.scalar Cls.img 3],
         Ctx.record []) := rfl

example :
    runNodes tmW [nodeA] (DataV.scalar Cls.img 7) (Ctx.record [("a", PVal.num 0)]) =
    .ok ([nodeA], DataV.scalar Cls.img 8, Ctx.record [("a", PVal.num 0)]) := rfl

example :
    runNodes tmW [.probeResultCollector probeW [] [] id]
      (DataV.coll Cls.stack [DataV.scalar Cls.img 4, DataV.scalar Cls.img 5])
      (Ctx.record []) =
    .ok ([.probeResultCollector probeW [] [PVal.list [PVal.num 4, PVal.num 5]] id],
         DataV.coll Cls.stack [DataV.scalar Cls.img 4, DataV.scalar Cls.img 5],
         Ctx.record []) := rfl

example :
    runNodes tmW [.probeContextInjector probeW [] "mock_keyword" id]
      (DataV.coll Cls.stack [DataV.scalar Cls.img 4, DataV.scalar Cls.img 5])
      (Ctx.record []) =
    .ok ([.probeContextInjector probeW [] "mock_keyword" id],
         DataV.coll Cls.stack [DataV.scalar Cls.img 4, DataV.scalar Cls.img 5],
         Ctx.record [("mock_keyword", PVal.list [PVal.num 4, PVal.num 5])]) := rfl

example :
    runNodes tmW [.algorithmNode projOpW [] id] (DataV.scalar Cls.img 1)
      (Ctx.record []) =
    .error (.topologyMismatch "StackToImageMeanProjector" Cls.stack Cls.img) := rfl

example :
    runNodes tmW [nodeA]
      (DataV.coll Cls.stack [DataV.scalar Cls.img 1, DataV.scalar Cls.img 2])
      (Ctx.collection [[("p", PVal.num 0)]]) =
    .error (.shapeMismatch 2 1) := rfl

section Lemmas

variable {C : Type} [DecidableEq C]

lemma mapExcept_ok_length {α β ε : Type} {g : α → Except ε β} :
    ∀ {l : List α} {l' : List β}, mapExcept g l = .ok l' → l'.length = l.length := by
  intro l
  induction l with
  | nil =>
    intro l' h
    unfold mapExcept at h
    cases h
    rfl
  | cons a as ih =>
    intro l' h
    unfold mapExcept at h
    cases hg : g a with
    | error e => rw [hg] at h; cases h
    | ok b =>
      rw [hg] at h
      cases hr : mapExcept g as with
      | error e => rw [hr] at h; cases h
      | ok bs =>
        rw [hr] at h
        cases h
        simp [ih hr]

lemma mapExcept_ok_get {α β ε : Type} {g : α → Except ε β} :
    ∀ {l : List α} {l' : List β}, mapExcept g l = .ok l' →
      ∀ i (hi : i < l.length) (hi' : i < l'.length),
        g (l.get ⟨i, hi⟩) = .ok (l'.get ⟨i, hi'⟩) := by
  intro l
  induction l with
  | nil =>
    intro l' h i hi hi'
    exact absurd hi (by simp)
  | cons a as ih =>
    intro l' h i hi hi'
    unfold mapExcept at h
    cases hg : g a with
    | error e => rw [hg] at h; cases h
    | ok b =>
      rw [hg] at h
      cases hr : mapExcept g as with
      | error e => rw [hr] at h; cases h
      | ok bs =>
        rw [hr] at h
        cases h
        cases i with
        | zero => simpa using hg
        | succ j =>
          exact ih hr j (Nat.lt_of_succ_lt_succ hi) (Nat.lt_of_succ_lt_succ hi')

lemma runNodes_cons_ty (tm : TypeModel C) (n : Node C) (rest : List (Node C))
    (d : DataV C) (c : Ctx) (I : C) (hI : nodeInTy n = some I) :
    runNodes tm (n :: rest) d c =
      if d.rtype = I ∨ (d.isColl = true ∧ tm.elemOf d.rtype = some I)
          ∨ tm.sub d.rtype I = true then
        match nodeProcess tm n d c with
        | .error e => .error e
        | .ok x =>
          match runNodes tm rest x.2.1 x.2.2 with
          | .error e => .error e
          | .ok y => .ok (x.1 :: y.1, y.2)
      else .error (.topologyMismatch (opName n) I d.rtype) := by
  cases n with
  | algorithmNode op cfg f => cases hI; rfl
  | probeContextInjector op cfg kw f => cases hI; rfl
  | probeResultCollector op cfg L f => cases hI; rfl
  | contextNode nm f => cases hI

lemma nodeProcess_ty (tm : TypeModel C) (n : Node C) (d : DataV C) (c : Ctx)
    (I : C) (hI : nodeInTy n = some I) :
    nodeProcess tm n d c =
      if d.rtype = I ∨ tm.sub d.rtype I = true then nodeDirect tm n d c
      else
        match d with
        | .coll cty elems =>
          if tm.elemOf cty = some I then
            match c with
            | .record r => sliceScalar tm n cty elems r
            | .collection rs =>
              if rs.length = elems.length then sliceCollection tm n cty elems rs
              else .error (.shapeMismatch elems.length rs.length)
          else .error (.topologyMismatch (opName n) I cty)
        | .scalar ty _ => .error (.topologyMismatch (opName n) I ty) := by
  cases n with
  | algorithmNode op cfg f => cases hI; rfl
  | probeContextInjector op cfg kw f => cases hI; rfl
  | probeResultCollector op cfg L f => cases hI; rfl
  | contextNode nm f => cases hI

lemma nodeProcess_direct (tm : TypeModel C) (n : Node C) (d : DataV C) (c : Ctx)
    (I : C) (hI : nodeInTy n = some I)
    (hty : d.rtype = I ∨ tm.sub d.rtype I = true) :
    nodeProcess tm n d c = nodeDirect tm n d c := by
  rw [nodeProcess_ty tm n d c I hI, if_pos hty]

lemma nodeProcess_slice_record (tm : TypeModel C) (n : Node C) (cty : C)
    (elems : List (DataV C)) (r : Record) (I : C) (hI : nodeInTy n = some I)
    (hnd : ¬ ((DataV.coll cty elems).rtype = I
        ∨ tm.sub (DataV.coll cty elems).rtype I = true))
    (he : tm.elemOf cty = some I) :
    nodeProcess tm n (.coll cty elems) (.record r) = sliceScalar tm n cty elems r := by
  rw [nodeProcess_ty tm n (.coll cty elems) (.record r) I hI, if_neg hnd]
  show (if tm.elemOf cty = some I then sliceScalar tm n cty elems r
        else .error (.topologyMismatch (opName n) I cty)) = _
  rw [if_pos he]

lemma nodeProcess_slice_collection (tm : TypeModel C) (n : Node C) (cty : C)
    (elems : List (DataV C)) (rs : List Record) (I : C) (hI : nodeInTy n = some I)
    (hnd : ¬ ((DataV.coll cty elems).rtype = I
        ∨ tm.sub (DataV.coll cty elems).rtype I = true))
    (he : tm.elemOf cty = some I) :
    nodeProcess tm n (.coll cty elems) (.collection rs) =
      if rs.length = elems.length then sliceCollection tm n cty elems rs
      else .error (.shapeMismatch elems.length rs.length) := by
  rw [nodeProcess_ty tm n (.coll cty elems) (.collection rs) I hI, if_neg hnd]
  show (if tm.elemOf cty = some I then
          (if rs.length = elems.length then sliceCollection tm n cty elems rs
           else .error (.shapeMismatch elems.length rs.length))
        else .error (.topologyMismatch (opName n) I cty)) = _
  rw [if_pos he]

lemma addNode_eq (tm : TypeModel C) (ns : List (Node C)) (n : Node C)
    (aop : AlgorithmOp C) (acfg : Record) (af : Record → Record) (I : C)
    (h2 : lastTypeConstraining ns = some (.algorithmNode aop acfg af))
    (hnc : isContextN n = false) (hI : nodeInTy n = some I) :
    addNode tm ns n =
      if tm.elemOf aop.outTy = some I then .ok (ns ++ [n])
      else if tm.sub aop.outTy I = true ∨ tm.sub I aop.outTy = true then
        .ok (ns ++ [n])
      else .error (.topology aop.name (opName n) aop.outTy I) := by
  cases n with
  | algorithmNode op cfg f =>
    cases hI
    unfold addNode
    rw [h2]
    rfl
  | probeContextInjector op cfg kw f =>
    cases hI
    unfold addNode
    rw [h2]
    rfl
  | probeResultCollector op cfg L f =>
    cases hI
    unfold addNode
    rw [h2]
    rfl
  | contextNode nm f => cases hnc

lemma addNode_error (tm : TypeModel C) (ns : List (Node C)) (n : Node C)
    (aop : AlgorithmOp C) (acfg : Record) (af : Record → Record) (I : C)
    (h2 : lastTypeConstraining ns = some (.algorithmNode aop acfg af))
    (hnc : isContextN n = false) (hI : nodeInTy n = some I)
    (hcoll : ¬ tm.elemOf aop.outTy = some I)
    (hs1 : tm.sub aop.outTy I = false)
    (hs2 : tm.sub I aop.outTy = false) :
    addNode tm ns n = .error (.topology aop.name (opName n) aop.outTy I) := by
  rw [addNode_eq tm ns n aop acfg af I h2 hnc hI, if_neg hcoll, if_neg]
  intro h
  rcases h with h | h
  · rw [hs1] at h; cases h
  · rw [hs2] at h; cases h

lemma initializeNodesFrom_append (tm : TypeModel C) (acc : List (Node C))
    (l1 l2 : List (NodeConfig C)) :
    initializeNodesFrom tm acc (l1 ++ l2) =
      match initializeNodesFrom tm acc l1 with
      | .error e => .error e
      | .ok acc2 => initializeNodesFrom tm acc2 l2 := by
  induction l1 generalizing acc with
  | nil => rfl
  | cons cfg rest ih =>
    simp only [List.cons_append, initializeNodesFrom]
    cases addNode tm acc (node_factory cfg) with
    | error e => rfl
    | ok acc2 => exact ih acc2

lemma inspectLoop_eq (ns : List (Node C)) :
    ∀ a i : Finset String,
      inspectLoop ns (a, i) = (a ∪ allCtxOf ns, i ∪ injKwsOf ns) := by
  induction ns with
  | nil =>
    intro a i
    simp [inspectLoop, allCtxOf, injKwsOf]
  | cons n rest ih =>
    intro a i
    simp only [inspectLoop, allCtxOf, injKwsOf]
    cases injectorKw n with
    | none =>
      rw [ih]
      simp [Finset.union_assoc]
    | some kw =>
      rw [ih]
      simp [Finset.insert_eq, Finset.union_assoc, Finset.union_left_comm]

lemma mem_allCtxOf (ns : List (Node C)) (x : String) :
    x ∈ allCtxOf ns ↔
      ∃ n ∈ ns,
        x ∈ (opParamsOf n).toFinset \ ((configOf n).map Prod.fst).toFinset := by
  induction ns with
  | nil => simp [allCtxOf]
  | cons n rest ih => simp [allCtxOf, ih]

lemma mem_injKwsOf (ns : List (Node C)) (x : String) :
    x ∈ injKwsOf ns ↔ ∃ n ∈ ns, injectorKw n = some x := by
  induction ns with
  | nil => simp [injKwsOf]
  | cons n rest ih =>
    cases hkw : injectorKw n with
    | none => simp [injKwsOf, hkw, ih]
    | some kw =>
      simp only [injKwsOf, hkw, Finset.mem_union, Finset.mem_singleton, ih,
        List.mem_cons]
      constructor
      · intro h
        rcases h with h | ⟨m, hm, hkm⟩
        · exact ⟨n, Or.inl rfl, by rw [hkw, h]⟩
        · exact ⟨m, Or.inr hm, hkm⟩
      · intro h
        rcases h with ⟨m, hm | hm, hkm⟩
        · subst hm
          rw [hkw] at hkm
          exact Or.inl (Option.some.inj hkm).symm
        · exact Or.inr ⟨m, hm, hkm⟩

lemma get_zip_pair {α β : Type} (as : List α) (bs : List β) (i : Nat)
    (h : i < (as.zip bs).length) (ha : i < as.length) (hb : i < bs.length) :
    (as.zip bs).get ⟨i, h⟩ = (as.get ⟨i, ha⟩, bs.get ⟨i, hb⟩) := by
  simp [List.get_eq_getElem, List.getElem_zip]

lemma get_map_apply {α β : Type} (f : α → β) (l : List α) (i : Nat)
    (h : i < (l.map f).length) (h2 : i < l.length) :
    (l.map f).get ⟨i, h⟩ = f (l.get ⟨i, h2⟩) := by
  simp [List.get_eq_getElem, List.getElem_map]

lemma sliceScalar_ok (tm : TypeModel C) (n : Node C) (cty : C)
    (elems : List (DataV C)) (r : Record) (out : Node C × DataV C × Ctx)
    (h : sliceScalar tm n cty elems r = .ok out) :
    ∃ es rr, out.2.1 = .coll cty es ∧ out.2.2 = .record rr ∧
      es.length = elems.length := by
  cases n with
  | algorithmNode op cfg f =>
    have hred : sliceScalar tm (.algorithmNode op cfg f) cty elems r =
        match mapExcept
            (fun e => (resolveParams op.params cfg r op.name).map (op.apply e))
            elems with
        | .error e => (.error e : Except (PErr C) (Node C × DataV C × Ctx))
        | .ok es => .ok (.algorithmNode op cfg f, .coll cty es, .record r) := rfl
    rw [hred] at h
    cases hm : mapExcept
        (fun e => (resolveParams op.params cfg r op.name).map (op.apply e))
        elems with
    | error e => rw [hm] at h; cases h
    | ok es =>
      rw [hm] at h
      have hx : (Except.ok (Node.algorithmNode op cfg f, DataV.coll cty es,
          Ctx.record r) : Except (PErr C) (Node C × DataV C × Ctx)) = .ok out := h
      cases hx
      exact ⟨es, r, rfl, rfl, mapExcept_ok_length hm⟩
  | probeContextInjector op cfg kw f =>
    have hred : sliceScalar tm (.probeContextInjector op cfg kw f) cty elems r =
        match mapExcept
            (fun e => (resolveParams op.params cfg r op.name).map (op.applyP e))
            elems with
        | .error e => (.error e : Except (PErr C) (Node C × DataV C × Ctx))
        | .ok vs =>
          .ok (.probeContextInjector op cfg kw f, .coll cty elems,
               .record (r.setVal kw (.list vs))) := rfl
    rw [hred] at h
    cases hm : mapExcept
        (fun e => (resolveParams op.params cfg r op.name).map (op.applyP e))
        elems with
    | error e => rw [hm] at h; cases h
    | ok vs =>
      rw [hm] at h
      have hx : (Except.ok (Node.probeContextInjector op cfg kw f,
          DataV.coll cty elems, Ctx.record (r.setVal kw (.list vs))) :
          Except (PErr C) (Node C × DataV C × Ctx)) = .ok out := h
      cases hx
      exact ⟨elems, r.setVal kw (.list vs), rfl, rfl, rfl⟩
  | probeResultCollector op cfg L f =>
    have hred : sliceScalar tm (.probeResultCollector op cfg L f) cty elems r =
        match mapExcept
            (fun e => (resolveParams op.params cfg r op.name).map (op.applyP e))
            elems with
        | .error e => (.error e : Except (PErr C) (Node C × DataV C × Ctx))
        | .ok vs =>
          .ok (.probeResultCollector op cfg (L ++ [PVal.list vs]) f,
               .coll cty elems, .record r) := rfl
    rw [hred] at h
    cases hm : mapExcept
        (fun e => (resolveParams op.params cfg r op.name).map (op.applyP e))
        elems with
    | error e => rw [hm] at h; cases h
    | ok vs =>
      rw [hm] at h
      have hx : (Except.ok (Node.probeResultCollector op cfg
          (L ++ [PVal.list vs]) f, DataV.coll cty elems, Ctx.record r) :
          Except (PErr C) (Node C × DataV C × Ctx)) = .ok out := h
      cases hx
      exact ⟨elems, r, rfl, rfl, rfl⟩
  | contextNode nm f =>
    have hx : (Except.ok (Node.contextNode nm f, DataV.coll cty elems,
        Ctx.record r) : Except (PErr C) (Node C × DataV C × Ctx)) = .ok out := h
    cases hx
    exact ⟨elems, r, rfl, rfl, rfl⟩

lemma sliceCollection_ok (tm : TypeModel C) (n : Node C) (cty : C)
    (elems : List (DataV C)) (rs : List Record)
    (out : Node C × DataV C × Ctx) (hlen : rs.length = elems.length)
    (h : sliceCollection tm n cty elems rs = .ok out) :
    ∃ es rs', out.2.1 = .coll cty es ∧ out.2.2 = .collection rs' ∧
      es.length = elems.length ∧ rs'.length = elems.length ∧
      ∀ i (hie : i < elems.length) (hir : i < rs.length)
        (hie2 : i < es.length) (hir2 : i < rs'.length),
        elemNode tm n (elems.get ⟨i, hie⟩) (rs.get ⟨i, hir⟩) =
          .ok (es.get ⟨i, hie2⟩, rs'.get ⟨i, hir2⟩) := by
  have hz : (elems.zip rs).length = elems.length := by
    rw [List.length_zip, hlen, Nat.min_self]
  cases n with
  | algorithmNode op cfg f =>
    have hred : sliceCollection tm (.algorithmNode op cfg f) cty elems rs =
        match mapExcept
            (fun p => (resolveParams op.params cfg p.2 op.name).map (op.apply p.1))
            (elems.zip rs) with
        | .error e => (.error e : Except (PErr C) (Node C × DataV C × Ctx))
        | .ok es =>
          .ok (.algorithmNode op cfg f, .coll cty es,
               .collection (rs.map f)) := rfl
    rw [hred] at h
    cases hm : mapExcept
        (fun p => (resolveParams op.params cfg p.2 op.name).map (op.apply p.1))
        (elems.zip rs) with
    | error e => rw [hm] at h; cases h
    | ok es =>
      rw [hm] at h
      have hx : (Except.ok (Node.algorithmNode op cfg f, DataV.coll cty es,
          Ctx.collection (rs.map f)) :
          Except (PErr C) (Node C × DataV C × Ctx)) = .ok out := h
      cases hx
      have hlen_es : es.length = elems.length := (mapExcept_ok_length hm).trans hz
      refine ⟨es, rs.map f, rfl, rfl, hlen_es,
        by rw [List.length_map, hlen], ?_⟩
      intro i hie hir hie2 hir2
      have hzi : i < (elems.zip rs).length := by rw [hz]; exact hie
      have hg := mapExcept_ok_get hm i hzi hie2
      rw [get_zip_pair elems rs i hzi hie hir] at hg
      rw [get_map_apply f rs i hir2 hir]
      show (resolveParams op.params cfg (rs.get ⟨i, hir⟩) op.name).map
          (fun ps => (op.apply (elems.get ⟨i, hie⟩) ps,
            f (rs.get ⟨i, hir⟩))) = _
      cases hr : resolveParams op.params cfg (rs.get ⟨i, hir⟩) op.name
          (C := C) with
      | error e => rw [hr] at hg; cases hg
      | ok ps =>
        rw [hr] at hg
        have happ : op.apply (elems.get ⟨i, hie⟩) ps = es.get ⟨i, hie2⟩ :=
          Except.ok.inj hg
        show (Except.ok (op.apply (elems.get ⟨i, hie⟩) ps,
            f (rs.get ⟨i, hir⟩)) :
            Except (PErr C) (DataV C × Record)) = _
        rw [happ]
  | probeContextInjector op cfg kw f =>
    have hred : sliceCollection tm (.probeContextInjector op cfg kw f) cty
        elems rs =
        match mapExcept
            (fun p => (resolveParams op.params cfg p.2 op.name).map (op.applyP p.1))
            (elems.zip rs) with
        | .error e => (.error e : Except (PErr C) (Node C × DataV C × Ctx))
        | .ok vs =>
          .ok (.probeContextInjector op cfg kw f, .coll cty elems,
               .collection ((rs.zip vs).map
                 (fun q => (f q.1).setVal kw q.2))) := rfl
    rw [hred] at h
    cases hm : mapExcept
        (fun p => (resolveParams op.params cfg p.2 op.name).map (op.applyP p.1))
        (elems.zip rs) with
    | error e => rw [hm] at h; cases h
    | ok vs =>
      rw [hm] at h
      have hx : (Except.ok (Node.probeContextInjector op cfg kw f,
          DataV.coll cty elems,
          Ctx.collection ((rs.zip vs).map (fun q => (f q.1).setVal kw q.2))) :
          Except (PErr C) (Node C × DataV C × Ctx)) = .ok out := h
      cases hx
      have hlv : vs.length = elems.length := (mapExcept_ok_length hm).trans hz
      have hzv : (rs.zip vs).length = elems.length := by
        rw [List.length_zip, hlen, hlv, Nat.min_self]
      refine ⟨elems, (rs.zip vs).map (fun q => (f q.1).setVal kw q.2), rfl, rfl,
        rfl, by rw [List.length_map, hzv], ?_⟩
      intro i hie hir hie2 hir2
      have hzi : i < (elems.zip rs).length := by rw [hz]; exact hie
      have hvi : i < vs.length := by rw [hlv]; exact hie
      have hzi2 : i < (rs.zip vs).length := by rw [hzv]; exact hie
      have hg := mapExcept_ok_get hm i hzi hvi
      rw [get_zip_pair elems rs i hzi hie hir] at hg
      rw [get_map_apply (fun q => (f q.1).setVal kw q.2) (rs.zip vs) i hir2 hzi2,
        get_zip_pair rs vs i hzi2 hir hvi]
      show (resolveParams op.params cfg (rs.get ⟨i, hir⟩) op.name).map
          (fun ps => (elems.get ⟨i, hie⟩,
            (f (rs.get ⟨i, hir⟩)).setVal kw
              (op.applyP (elems.get ⟨i, hie⟩) ps))) = _
      cases hr : resolveParams op.params cfg (rs.get ⟨i, hir⟩) op.name
          (C := C) with
      | error e => rw [hr] at hg; cases hg
      | ok ps =>
        rw [hr] at hg
        have happ : op.applyP (elems.get ⟨i, hie⟩) ps = vs.get ⟨i, hvi⟩ :=
          Except.ok.inj hg
        show (Except.ok (elems.get ⟨i, hie⟩,
            (f (rs.get ⟨i, hir⟩)).setVal kw
              (op.applyP (elems.get ⟨i, hie⟩) ps)) :
            Except (PErr C) (DataV C × Record)) = _
        rw [happ]
  | probeResultCollector op cfg L f =>
    have hred : sliceCollection tm (.probeResultCollector op cfg L f) cty
        elems rs =
        match mapExcept
            (fun p => (resolveParams op.params cfg p.2 op.name).map (op.applyP p.1))
            (elems.zip rs) with
        | .error e => (.error e : Except (PErr C) (Node C × DataV C × Ctx))
        | .ok vs =>
          .ok (.probeResultCollector op cfg (L ++ [PVal.list vs]) f,
               .coll cty elems, .collection (rs.map f)) := rfl
    rw [hred] at h
    cases hm : mapExcept
        (fun p => (resolveParams op.params cfg p.2 op.name).map (op.applyP p.1))
        (elems.zip rs) with
    | error e => rw [hm] at h; cases h
    | ok vs =>
      rw [hm] at h
      have hx : (Except.ok (Node.probeResultCollector op cfg
          (L ++ [PVal.list vs]) f, DataV.coll cty elems,
          Ctx.collection (rs.map f)) :
          Except (PErr C) (Node C × DataV C × Ctx)) = .ok out := h
      cases hx
      refine ⟨elems, rs.map f, rfl, rfl, rfl,
        by rw [List.length_map, hlen], ?_⟩
      intro i hie hir hie2 hir2
      have hzi : i < (elems.zip rs).length := by rw [hz]; exact hie
      have hvi : i < vs.length := by
        rw [(mapExcept_ok_length hm).trans hz]; exact hie
      have hg := mapExcept_ok_get hm i hzi hvi
      rw [get_zip_pair elems rs i hzi hie hir] at hg
      rw [get_map_apply f rs i hir2 hir]
      show (resolveParams op.params cfg (rs.get ⟨i, hir⟩) op.name).map
          (fun _ => (elems.get ⟨i, hie⟩, f (rs.get ⟨i, hir⟩))) = _
      cases hr : resolveParams op.params cfg (rs.get ⟨i, hir⟩) op.name
          (C := C) with
      | error e => rw [hr] at hg; cases hg
      | ok ps => rfl
  | contextNode nm f =>
    have hx : (Except.ok (Node.contextNode nm f, DataV.coll cty elems,
        Ctx.collection (rs.map f)) :
        Except (PErr C) (Node C × DataV C × Ctx)) = .ok out := h
    cases hx
    refine ⟨elems, rs.map f, rfl, rfl, rfl,
      by rw [List.length_map, hlen], ?_⟩
    intro i hie hir hie2 hir2
    rw [get_map_apply f rs i hir2 hir]
    rfl

end Lemmas

section Claims

variable {C : Type} [DecidableEq C]

/-- C9: a Pipeline constructed from the empty configuration list is
built without error, and its process returns exactly the input pair
unchanged. -/
theorem empty_pipeline_identity (tm : TypeModel C) (d : DataV C) (c : Ctx) :
    buildPipeline tm ([] : List (NodeConfig C)) = .ok ⟨[]⟩ ∧
    Pipeline.process ⟨([] : List (Node C))⟩ tm d c = .ok (⟨[]⟩, d, c) :=
  ⟨rfl, rfl⟩

/-- C7: when a parameter name is declared by the operation and present
both in the node's explicit configuration and in the context, the
resolved parameter set passes the explicit configuration value, not the
context value. -/
theorem param_precedence (declared : List String) (cfg ctx : Record)
    (opN name : String) (v w : PVal) (ps : Record)
    (hmem : name ∈ declared)
    (hcfg : Record.getVal cfg name = some v)
    (hctx : Record.getVal ctx name = some w)
    (hres : resolveParams declared cfg ctx opN = (.ok ps : Except (PErr C) Record)) :
    Record.getVal ps name = some v := by
  induction declared generalizing ps with
  | nil => cases hmem
  | cons hd tl ih =>
    unfold resolveParams at hres
    cases hl : lookupParam cfg ctx hd with
    | none => rw [hl] at hres; cases hres
    | some u =>
      rw [hl] at hres
      cases hr : resolveParams tl cfg ctx opN (C := C) with
      | error e => rw [hr] at hres; cases hres
      | ok ps' =>
        rw [hr] at hres
        cases hres
        by_cases hhd : hd = name
        · subst hhd
          have hu : u = v := by
            unfold lookupParam at hl
            rw [hcfg] at hl
            exact (Option.some.inj hl).symm
          subst hu
          simp [Record.getVal]
        · have hmem' : name ∈ tl := by
            cases hmem with
            | head => exact absurd rfl hhd
            | tail _ hmem2 => exact hmem2
          simp only [Record.getVal, if_neg hhd]
          exact ih ps' hmem' hr

/-- C7 witness: with the parameter configured as 1 and present in the
context as 2, resolution passes 1. -/
theorem param_precedence_witness :
    Record.getVal [("image_to_add", PVal.num 1)] "image_to_add" = some (PVal.num 1) :=
  param_precedence (C := Cls) ["image_to_add"] [("image_to_add", PVal.num 1)]
    [("image_to_add", PVal.num 2)] "ImageAddition" "image_to_add"
    (PVal.num 1) (PVal.num 2) [("image_to_add", PVal.num 1)]
    (by simp) rfl rfl rfl

/-- C3: when the concrete type of the current data neither equals nor
subclasses the node's declared input type, and the data is not a data
collection whose element type equals it, the run fails with the
topology-mismatch error naming the node's operation, the expected type
and the received concrete type, and returns no result. -/
theorem runtime_no_match (tm : TypeModel C) (n : Node C) (rest : List (Node C))
    (d : DataV C) (c : Ctx) (I : C)
    (hI : nodeInTy n = some I)
    (h1 : d.rtype ≠ I)
    (h2 : tm.sub d.rtype I = false)
    (h3 : ¬ (d.isColl = true ∧ tm.elemOf d.rtype = some I)) :
    runNodes tm (n :: rest) d c =
      .error (.topologyMismatch (opName n) I d.rtype) := by
  rw [runNodes_cons_ty tm n rest d c I hI]
  rw [if_neg]
  intro h
  rcases h with h | h | h
  · exact h1 h
  · exact h3 h
  · rw [h2] at h; cases h

/-- C3 witness: a stack-consuming node fed a scalar image fails with the
mismatch error. -/
theorem runtime_no_match_witness :
    runNodes tmW [Node.algorithmNode projOpW [] id] (DataV.scalar Cls.img 1)
      (Ctx.record []) =
    .error (.topologyMismatch "StackToImageMeanProjector" Cls.stack Cls.img) :=
  runtime_no_match tmW (.algorithmNode projOpW [] id) [] (DataV.scalar Cls.img 1)
    (Ctx.record []) Cls.stack rfl (by decide) rfl (by decide)

/-- C6: a slicing step that pairs a data collection with a context
collection of a different length fails with the shape-mismatch error and
produces no output payload. -/
theorem slicing_shape_mismatch (tm : TypeModel C) (n : Node C)
    (rest : List (Node C)) (cty : C) (elems : List (DataV C))
    (rs : List Record) (I : C)
    (hI : nodeInTy n = some I) (he : tm.elemOf cty = some I)
    (hne : cty ≠ I) (hsub : tm.sub cty I = false)
    (hlen : rs.length ≠ elems.length) :
    runNodes tm (n :: rest) (.coll cty elems) (.collection rs) =
      .error (.shapeMismatch elems.length rs.length) := by
  have hnd : ¬ ((DataV.coll cty elems).rtype = I
      ∨ tm.sub (DataV.coll cty elems).rtype I = true) := by
    intro h
    rcases h with h | h
    · exact hne h
    · have h2 : tm.sub cty I = true := h
      rw [hsub] at h2
      cases h2
  rw [runNodes_cons_ty tm n rest _ _ I hI]
  rw [if_pos (Or.inr (Or.inl ⟨rfl, he⟩))]
  rw [nodeProcess_slice_collection tm n cty elems rs I hI hnd he]
  rw [if_neg hlen]

/-- C6 witness: two data elements paired with one context record fail
with the shape-mismatch error. -/
theorem slicing_shape_mismatch_witness :
    runNodes tmW [nodeA]
      (DataV.coll Cls.stack [DataV.scalar Cls.img 1, DataV.scalar Cls.img 2])
      (Ctx.collection [[("p", PVal.num 0)]]) =
    .error (.shapeMismatch 2 1) :=
  slicing_shape_mismatch tmW nodeA [] Cls.stack
    [DataV.scalar Cls.img 1, DataV.scalar Cls.img 2] [[("p", PVal.num 0)]]
    Cls.img rfl rfl (by decide) rfl (by decide)

/-- C5: when the concrete type of the current data equals or subclasses
the node's declared input type, the node is called once on the whole
data object through the non-sliced path, and its returned payload
becomes the running payload for the remaining nodes. -/
theorem exact_match_direct (tm : TypeModel C) (n : Node C) (rest : List (Node C))
    (d : DataV C) (c : Ctx) (I : C)
    (hI : nodeInTy n = some I)
    (hty : d.rtype = I ∨ tm.sub d.rtype I = true) :
    runNodes tm (n :: rest) d c =
      match nodeDirect tm n d c with
      | .error e => .error e
      | .ok x =>
        match runNodes tm rest x.2.1 x.2.2 with
        | .error e => .error e
        | .ok y => .ok (x.1 :: y.1, y.2) := by
  rw [runNodes_cons_ty tm n rest d c I hI]
  rw [if_pos (by
    rcases hty with h | h
    · exact Or.inl h
    · exact Or.inr (Or.inr h))]
  rw [nodeProcess_direct tm n d c I hI hty]

/-- C5 witness: a scalar image fed to an image node is processed by the
direct call and its result adopted. -/
theorem exact_match_direct_witness :
    runNodes tmW [nodeA] (DataV.scalar Cls.img 7) (Ctx.record []) =
      match nodeDirect tmW nodeA (DataV.scalar Cls.img 7) (Ctx.record []) with
      | .error e => .error e
      | .ok x =>
        match runNodes tmW ([] : List (Node Cls)) x.2.1 x.2.2 with
        | .error e => .error e
        | .ok y => .ok (x.1 :: y.1, y.2) :=
  exact_match_direct tmW nodeA [] (DataV.scalar Cls.img 7) (Ctx.record [])
    Cls.img rfl (Or.inl rfl)

/-- C2: appending, after a type-constraining algorithm node, a
non-context node whose declared input type is neither subtype-related in
either direction to the algorithm's declared output type nor the element
type of that output collection type makes construction fail with the
topology error naming both operation classes and both types; the
pipeline is never built, so no node can execute, regardless of any
further configured nodes. -/
theorem construction_topology_error (tm : TypeModel C)
    (cfgs1 : List (NodeConfig C)) (cfg : NodeConfig C)
    (rest : List (NodeConfig C)) (ns : List (Node C))
    (aop : AlgorithmOp C) (acfg : Record) (af : Record → Record) (I : C)
    (h1 : initializeNodes tm cfgs1 = .ok ns)
    (h2 : lastTypeConstraining ns = some (.algorithmNode aop acfg af))
    (hnc : isContextN (node_factory cfg) = false)
    (hI : nodeInTy (node_factory cfg) = some I)
    (hcoll : ¬ tm.elemOf aop.outTy = some I)
    (hs1 : tm.sub aop.outTy I = false)
    (hs2 : tm.sub I aop.outTy = false) :
    buildPipeline tm (cfgs1 ++ cfg :: rest) =
      .error (.topology aop.name (opName (node_factory cfg)) aop.outTy I) := by
  have key : initializeNodes tm (cfgs1 ++ cfg :: rest) =
      .error (.topology aop.name (opName (node_factory cfg)) aop.outTy I) := by
    unfold initializeNodes at h1 ⊢
    rw [initializeNodesFrom_append tm [] cfgs1 (cfg :: rest), h1]
    show initializeNodesFrom tm ns (cfg :: rest) = _
    unfold initializeNodesFrom
    rw [addNode_error tm ns (node_factory cfg) aop acfg af I h2 hnc hI hcoll hs1 hs2]
  unfold buildPipeline
  rw [key]

/-- C2 witness: an image-to-image algorithm followed by a numeric-input
algorithm is rejected at construction with the topology error. -/
theorem construction_topology_error_witness :
    buildPipeline tmW
      ([⟨OpRef.alg addOpW, [("image_to_add", PVal.num 1)], none, id⟩] ++
        ⟨OpRef.alg numOpW, [], none, id⟩ :: []) =
      .error (.topology "ImageAddition" "FitModel" Cls.img Cls.numT) :=
  construction_topology_error tmW
    [⟨OpRef.alg addOpW, [("image_to_add", PVal.num 1)], none, id⟩]
    ⟨OpRef.alg numOpW, [], none, id⟩ [] [nodeA] addOpW
    [("image_to_add", PVal.num 1)] id Cls.numT rfl rfl rfl rfl (by decide)
    rfl rfl

/-- C10: the context-parameters-needed set reported by inspect equals
the union over all nodes of declared-minus-configured parameter names,
minus the union of the context keywords of all probe-injector nodes, so
a parameter supplied by such a probe is reported as not needed even when
its consumer precedes the probe in the pipeline. -/
theorem inspect_needed_params (ns : List (Node C)) (x : String) :
    x ∈ neededContextParams ns ↔
      ((∃ n ∈ ns,
          x ∈ (opParamsOf n).toFinset \ ((configOf n).map Prod.fst).toFinset)
        ∧ ¬ ∃ n ∈ ns, injectorKw n = some x) := by
  unfold neededContextParams
  rw [inspectLoop_eq ns ∅ ∅]
  simp [Finset.mem_sdiff, mem_allCtxOf, mem_injKwsOf]

/-- C8: a probe-result-collector node run over an N-element collection
appends exactly one run record, an ordered list of length N, to its
ledger, and get_probe_results maps its position-and-operation identifier
to the full history; a subsequent scalar run on the resulting pipeline
appends one single-value run record while the earlier records stay
unchanged. -/
theorem probe_ledger_history (tm : TypeModel C) (op : ProbeOp C) (cfg : Record)
    (L : List PVal) (f : Record → Record) (cty : C) (elems : List (DataV C))
    (r : Record) (out1 : List (Node C) × DataV C × Ctx)
    (he : tm.elemOf cty = some op.inTy)
    (hne : cty ≠ op.inTy)
    (hsub : tm.sub cty op.inTy = false)
    (h1 : runNodes tm [.probeResultCollector op cfg L f] (.coll cty elems)
        (.record r) = .ok out1) :
    ∃ vs, vs.length = elems.length ∧
      out1 = ([.probeResultCollector op cfg (L ++ [PVal.list vs]) f],
              .coll cty elems, .record r) ∧
      getProbeResults ⟨out1.1⟩ =
        [("Node 1/" ++ op.name, L ++ [PVal.list vs])] ∧
      ∀ (d2 : DataV C) (c2 : Ctx) (out2 : List (Node C) × DataV C × Ctx),
        d2.rtype = op.inTy →
        runNodes tm out1.1 d2 c2 = .ok out2 →
        ∃ ps, resolveParamsCtx op.params cfg c2 op.name =
            (.ok ps : Except (PErr C) Record) ∧
          out2 = ([.probeResultCollector op cfg
                    ((L ++ [PVal.list vs]) ++ [op.applyP d2 ps]) f],
                  d2, ctxApply f c2) := by
  have hnd : ¬ ((DataV.coll cty elems).rtype = op.inTy
      ∨ tm.sub (DataV.coll cty elems).rtype op.inTy = true) := by
    intro h
    rcases h with h | h
    · exact hne h
    · have hb : tm.sub cty op.inTy = true := h
      rw [hsub] at hb
      cases hb
  rw [runNodes_cons_ty tm (.probeResultCollector op cfg L f) []
    (.coll cty elems) (.record r) op.inTy rfl] at h1
  rw [if_pos (Or.inr (Or.inl ⟨rfl, he⟩))] at h1
  rw [nodeProcess_slice_record tm (.probeResultCollector op cfg L f) cty elems
    r op.inTy rfl hnd he] at h1
  have hss : sliceScalar tm (.probeResultCollector op cfg L f) cty elems r =
      match mapExcept
          (fun e => (resolveParams op.params cfg r op.name).map (op.applyP e))
          elems with
      | .error e => .error e
      | .ok vs =>
        .ok (.probeResultCollector op cfg (L ++ [PVal.list vs]) f,
             .coll cty elems, .record r) := rfl
  rw [hss] at h1
  cases hm : mapExcept
      (fun e => (resolveParams op.params cfg r op.name).map (op.applyP e))
      elems with
  | error e =>
    rw [hm] at h1
    simp at h1
  | ok vs =>
    rw [hm] at h1
    have h1x : (Except.ok
        ([Node.probeResultCollector op cfg (L ++ [PVal.list vs]) f],
          DataV.coll cty elems, Ctx.record r) :
        Except (PErr C) (List (Node C) × DataV C × Ctx)) = .ok out1 := h1
    cases h1x
    have hstr : ("Node " ++ toString (0 + 1) ++ "/") = "Node 1/" := by decide
    refine ⟨vs, mapExcept_ok_length hm, rfl, ?_, ?_⟩
    · show [("Node " ++ toString (0 + 1) ++ "/" ++ op.name,
          L ++ [PVal.list vs])] = _
      rw [hstr]
    intro d2 c2 out2 hty h2run
    rw [runNodes_cons_ty tm
      (.probeResultCollector op cfg (L ++ [PVal.list vs]) f) [] d2 c2
      op.inTy rfl] at h2run
    rw [if_pos (Or.inl hty)] at h2run
    rw [nodeProcess_direct tm
      (.probeResultCollector op cfg (L ++ [PVal.list vs]) f) d2 c2
      op.inTy rfl (Or.inl hty)] at h2run
    have hdd : nodeDirect tm
        (.probeResultCollector op cfg (L ++ [PVal.list vs]) f) d2 c2 =
        match resolveParamsCtx op.params cfg c2 op.name with
        | .error e => .error e
        | .ok ps =>
          .ok (.probeResultCollector op cfg
                ((L ++ [PVal.list vs]) ++ [op.applyP d2 ps]) f, d2,
              ctxApply f c2) := rfl
    rw [hdd] at h2run
    cases hr : resolveParamsCtx op.params cfg c2 op.name (C := C) with
    | error e =>
      rw [hr] at h2run
      simp at h2run
    | ok ps =>
      rw [hr] at h2run
      have h2x : (Except.ok
          ([Node.probeResultCollector op cfg
              ((L ++ [PVal.list vs]) ++ [op.applyP d2 ps]) f], d2,
            ctxApply f c2) :
          Except (PErr C) (List (Node C) × DataV C × Ctx)) = .ok out2 := h2run
      cases h2x
      exact ⟨ps, rfl, rfl⟩

/-- C8 witness: a two-image collection run records one two-element list,
and a following scalar run appends one scalar record, keeping the first
record intact. -/
theorem probe_ledger_history_witness :
    ∃ vs, vs.length =
        ([DataV.scalar Cls.img 4, DataV.scalar Cls.img 5] :
          List (DataV Cls)).length ∧
      (([Node.probeResultCollector probeW []
            [PVal.list [PVal.num 4, PVal.num 5]] id],
          DataV.coll Cls.stack [DataV.scalar Cls.img 4, DataV.scalar Cls.img 5],
          Ctx.record []) :
        List (Node Cls) × DataV Cls × Ctx) =
        ([Node.probeResultCollector probeW [] ([] ++ [PVal.list vs]) id],
         DataV.coll Cls.stack [DataV.scalar Cls.img 4, DataV.scalar Cls.img 5],
         Ctx.record []) ∧
      getProbeResults
          ⟨[Node.probeResultCollector probeW []
              [PVal.list [PVal.num 4, PVal.num 5]] id]⟩ =
        [("Node 1/" ++ probeW.name, [] ++ [PVal.list vs])] ∧
      ∀ (d2 : DataV Cls) (c2 : Ctx) (out2 : List (Node Cls) × DataV Cls × Ctx),
        d2.rtype = probeW.inTy →
        runNodes tmW
          [Node.probeResultCollector probeW []
            [PVal.list [PVal.num 4, PVal.num 5]] id] d2 c2 = .ok out2 →
        ∃ ps, resolveParamsCtx probeW.params [] c2 probeW.name =
            (.ok ps : Except (PErr Cls) Record) ∧
          out2 = ([Node.probeResultCollector probeW []
                    (([] ++ [PVal.list vs]) ++ [probeW.applyP d2 ps]) id],
                  d2, ctxApply id c2) :=
  probe_ledger_history tmW probeW [] [] id Cls.stack
    [DataV.scalar Cls.img 4, DataV.scalar Cls.img 5] []
    ([Node.probeResultCollector probeW []
        [PVal.list [PVal.num 4, PVal.num 5]] id],
      DataV.coll Cls.stack [DataV.scalar Cls.img 4, DataV.scalar Cls.img 5],
      Ctx.record []) rfl (by decide) rfl rfl

/-- C1: running a pipeline of element-wise nodes on a data collection of
length N yields, on success, a data collection of the same concrete
container type and length N; a scalar record context stays a scalar
record, and a context collection of length N stays a context collection
of length N whose entry i, together with data element i, is the result
of pushing input pair i through every node's per-element step in
order. -/
theorem broadcast_shape (tm : TypeModel C) (nodes : List (Node C)) (cty : C)
    (elems : List (DataV C)) (c : Ctx) (out : List (Node C) × DataV C × Ctx)
    (hEW : ∀ n ∈ nodes, SlicesOn tm cty n)
    (h : runNodes tm nodes (.coll cty elems) c = .ok out) :
    ∃ es, out.2.1 = .coll cty es ∧ es.length = elems.length ∧
      (∀ r, c = .record r → ∃ rr, out.2.2 = .record rr) ∧
      (∀ rs, c = .collection rs → rs.length = elems.length →
        ∃ rs', out.2.2 = .collection rs' ∧ rs'.length = elems.length ∧
          ∀ i (hie : i < elems.length) (hir : i < rs.length)
            (hie2 : i < es.length) (hir2 : i < rs'.length),
            elemChain tm nodes (elems.get ⟨i, hie⟩) (rs.get ⟨i, hir⟩) =
              .ok (es.get ⟨i, hie2⟩, rs'.get ⟨i, hir2⟩)) := by
  induction nodes generalizing elems c out with
  | nil =>
    have hx : (Except.ok ([], DataV.coll cty elems, c) :
        Except (PErr C) (List (Node C) × DataV C × Ctx)) = .ok out := h
    cases hx
    refine ⟨elems, rfl, rfl, ?_, ?_⟩
    · intro r hr
      exact ⟨r, by rw [hr]⟩
    · intro rs hrs hlen
      refine ⟨rs, by rw [hrs], hlen, ?_⟩
      intro i hie hir hie2 hir2
      rfl
  | cons n rest ih =>
    obtain ⟨I, hI, hE, hne, hsub⟩ := hEW n (List.mem_cons_self n rest)
    have hEWr : ∀ m ∈ rest, SlicesOn tm cty m :=
      fun m hm => hEW m (List.mem_cons_of_mem n hm)
    have hnd : ¬ ((DataV.coll cty elems).rtype = I
        ∨ tm.sub (DataV.coll cty elems).rtype I = true) := by
      intro hcontra
      rcases hcontra with hcontra | hcontra
      · exact hne hcontra
      · have hb : tm.sub cty I = true := hcontra
        rw [hsub] at hb
        cases hb
    rw [runNodes_cons_ty tm n rest (.coll cty elems) c I hI] at h
    rw [if_pos (Or.inr (Or.inl ⟨rfl, hE⟩))] at h
    cases c with
    | record r =>
      rw [nodeProcess_slice_record tm n cty elems r I hI hnd hE] at h
      cases hsr : sliceScalar tm n cty elems r with
      | error e => rw [hsr] at h; simp at h
      | ok mid =>
        rw [hsr] at h
        obtain ⟨es1, rr1, hmid1, hmid2, hlen1⟩ :=
          sliceScalar_ok tm n cty elems r mid hsr
        have h' : (match runNodes tm rest mid.2.1 mid.2.2 with
                   | .error e => (.error e :
                       Except (PErr C) (List (Node C) × DataV C × Ctx))
                   | .ok y => .ok (mid.1 :: y.1, y.2)) = .ok out := h
        cases hrun : runNodes tm rest mid.2.1 mid.2.2 with
        | error e => rw [hrun] at h'; cases h'
        | ok y =>
          rw [hrun] at h'
          have h2 : (Except.ok (mid.1 :: y.1, y.2) :
              Except (PErr C) (List (Node C) × DataV C × Ctx)) = .ok out := h'
          cases h2
          rw [hmid1, hmid2] at hrun
          obtain ⟨es, ho1, ho2, hoRec, hoColl⟩ :=
            ih es1 (Ctx.record rr1) y hEWr hrun
          refine ⟨es, ho1, ho2.trans hlen1, ?_, ?_⟩
          · intro r2 hr2
            exact hoRec rr1 rfl
          · intro rs hrs hlen2
            cases hrs
    | collection rs =>
      rw [nodeProcess_slice_collection tm n cty elems rs I hI hnd hE] at h
      by_cases hlen : rs.length = elems.length
      · rw [if_pos hlen] at h
        cases hsc : sliceCollection tm n cty elems rs with
        | error e => rw [hsc] at h; simp at h
        | ok mid =>
          rw [hsc] at h
          obtain ⟨es1, rs1, hmid1, hmid2, hlen1, hlen2, halign1⟩ :=
            sliceCollection_ok tm n cty elems rs mid hlen hsc
          have h' : (match runNodes tm rest mid.2.1 mid.2.2 with
                     | .error e => (.error e :
                         Except (PErr C) (List (Node C) × DataV C × Ctx))
                     | .ok y => .ok (mid.1 :: y.1, y.2)) = .ok out := h
          cases hrun : runNodes tm rest mid.2.1 mid.2.2 with
          | error e => rw [hrun] at h'; cases h'
          | ok y =>
            rw [hrun] at h'
            have h2 : (Except.ok (mid.1 :: y.1, y.2) :
                Except (PErr C) (List (Node C) × DataV C × Ctx)) = .ok out := h'
            cases h2
            rw [hmid1, hmid2] at hrun
            obtain ⟨es, ho1, ho2, hoRec, hoColl⟩ :=
              ih es1 (Ctx.collection rs1) y hEWr hrun
            obtain ⟨rs', hc1, hc2, halign2⟩ :=
              hoColl rs1 rfl (hlen2.trans hlen1.symm)
            refine ⟨es, ho1, ho2.trans hlen1, ?_, ?_⟩
            · intro r2 hr2
              cases hr2
            · intro rs0 hrs0 hlen0
              cases hrs0
              refine ⟨rs', hc1, hc2.trans hlen1, ?_⟩
              intro i hie hir hie2 hir2
              have h1b : i < es1.length := by rw [hlen1]; exact hie
              have h2b : i < rs1.length := by rw [hlen2]; exact hie
              have hstep := halign1 i hie hir h1b h2b
              have hchain : elemChain tm (n :: rest) (elems.get ⟨i, hie⟩)
                  (rs.get ⟨i, hir⟩) =
                  elemChain tm rest (es1.get ⟨i, h1b⟩) (rs1.get ⟨i, h2b⟩) := by
                show (match elemNode tm n (elems.get ⟨i, hie⟩)
                    (rs.get ⟨i, hir⟩) with
                  | .error err => (.error err :
                      Except (PErr C) (DataV C × Record))
                  | .ok p => elemChain tm rest p.1 p.2) = _
                rw [hstep]
              rw [hchain]
              have hie2' : i < es.length := hie2
              have hir2' : i < rs'.length := hir2
              exact halign2 i h1b h2b hie2' hir2'
      · rw [if_neg hlen] at h
        cases h

/-- C1 witness: an element-wise algorithm over a two-image stack with a
two-record context collection preserves container type, lengths and
per-index alignment. -/
theorem broadcast_shape_witness :
    ∃ es, (DataV.coll Cls.stack
        [DataV.scalar Cls.img 2, DataV.scalar Cls.img 3] :
        DataV Cls) = .coll Cls.stack es ∧
      es.length = ([DataV.scalar Cls.img 1, DataV.scalar Cls.img 2] :
        List (DataV Cls)).length ∧
      (∀ r, (Ctx.collection [[("p", PVal.num 0)], [("p", PVal.num 1)]]) =
        .record r → ∃ rr, (Ctx.collection
          [[("p", PVal.num 0)], [("p", PVal.num 1)]]) = .record rr) ∧
      (∀ rs, (Ctx.collection [[("p", PVal.num 0)], [("p", PVal.num 1)]]) =
          .collection rs →
        rs.length = ([DataV.scalar Cls.img 1, DataV.scalar Cls.img 2] :
          List (DataV Cls)).length →
        ∃ rs', (Ctx.collection [[("p", PVal.num 0)], [("p", PVal.num 1)]]) =
            .collection rs' ∧
          rs'.length = ([DataV.scalar Cls.img 1, DataV.scalar Cls.img 2] :
            List (DataV Cls)).length ∧
          ∀ i (hie : i < ([DataV.scalar Cls.img 1, DataV.scalar Cls.img 2] :
              List (DataV Cls)).length)
            (hir : i < rs.length) (hie2 : i < es.length)
            (hir2 : i < rs'.length),
            elemChain tmW [nodeA]
              (([DataV.scalar Cls.img 1, DataV.scalar Cls.img 2] :
                List (DataV Cls)).get ⟨i, hie⟩) (rs.get ⟨i, hir⟩) =
              .ok (es.get ⟨i, hie2⟩, rs'.get ⟨i, hir2⟩)) :=
  broadcast_shape tmW [nodeA] Cls.stack
    [DataV.scalar Cls.img 1, DataV.scalar Cls.img 2]
    (Ctx.collection [[("p", PVal.num 0)], [("p", PVal.num 1)]])
    ([nodeA], DataV.coll Cls.stack
      [DataV.scalar Cls.img 2, DataV.scalar Cls.img 3],
     Ctx.collection [[("p", PVal.num 0)], [("p", PVal.num 1)]])
    (by
      intro n hn
      rw [List.mem_singleton] at hn
      subst hn
      exact ⟨Cls.img, rfl, rfl, by decide, rfl⟩)
    rfl

/-- C4 counterexample: a probe configured without a context-storage
keyword does not discard its result.  Built by the factory and run on a
scalar image, its value 5 is retrievable from get_probe_results, so it
was written somewhere; and the keyword-configured probe variant stores
its value into the context while not appearing in get_probe_results at
all. -/
theorem probe_variant_counterexample :
    buildPipeline tmW [⟨OpRef.probe probeW, [], none, id⟩] =
      .ok ⟨[Node.probeResultCollector probeW [] [] id]⟩ ∧
    (Pipeline.process ⟨[Node.probeResultCollector probeW [] [] id]⟩ tmW
        (DataV.scalar Cls.img 5) (Ctx.record [])).map
      (fun x => (getProbeResults x.1, x.2.2)) =
      .ok ([("Node 1/BasicImageProbe", [PVal.num 5])], Ctx.record []) ∧
    buildPipeline tmW [⟨OpRef.probe probeW, [], some "mock_keyword", id⟩] =
      .ok ⟨[Node.probeContextInjector probeW [] "mock_keyword" id]⟩ ∧
    (Pipeline.process ⟨[Node.probeContextInjector probeW [] "mock_keyword" id]⟩
        tmW (DataV.scalar Cls.img 5) (Ctx.record [])).map
      (fun x => (getProbeResults x.1, x.2.2)) =
      .ok ([], Ctx.record [("mock_keyword", PVal.num 5)]) :=
  ⟨rfl, rfl, rfl, rfl⟩

/-- C4 amended: with no context-storage keyword the factory builds the
probe-result-collector variant, which applies the probe and appends the
result as a run record to its ledger, reported by get_probe_results,
without writing into the context; with a keyword it builds the
probe-context-injector variant, which stores the result into the context
under that keyword and does not appear in get_probe_results. -/
theorem probe_variant_amended (tm : TypeModel C) (op : ProbeOp C)
    (prm : Record) (kw : String) (f : Record → Record) (L : List PVal)
    (d : DataV C) (r : Record) (ps : Record)
    (hres : resolveParams op.params prm r op.name =
      (.ok ps : Except (PErr C) Record)) :
    node_factory ⟨.probe op, prm, none, f⟩ =
      (.probeResultCollector op prm [] f : Node C) ∧
    node_factory ⟨.probe op, prm, some kw, f⟩ =
      (.probeContextInjector op prm kw f : Node C) ∧
    nodeDirect tm (.probeResultCollector op prm L f) d (.record r) =
      .ok (.probeResultCollector op prm (L ++ [op.applyP d ps]) f, d,
           .record (f r)) ∧
    nodeDirect tm (.probeContextInjector op prm kw f) d (.record r) =
      .ok (.probeContextInjector op prm kw f, d,
           .record ((f r).setVal kw (op.applyP d ps))) ∧
    getProbeResults ⟨([.probeContextInjector op prm kw f] : List (Node C))⟩ =
      [] ∧
    getProbeResults ⟨([.probeResultCollector op prm L f] : List (Node C))⟩ =
      [("Node 1/" ++ op.name, L)] := by
  refine ⟨rfl, rfl, ?_, ?_, rfl, ?_⟩
  · show (match resolveParams op.params prm r op.name with
      | .error e => (.error e : Except (PErr C) (Node C × DataV C × Ctx))
      | .ok ps =>
        .ok (.probeResultCollector op prm (L ++ [op.applyP d ps]) f, d,
             ctxApply f (.record r))) = _
    rw [hres]
    rfl
  · show (match resolveParams op.params prm r op.name with
      | .error e => (.error e : Except (PErr C) (Node C × DataV C × Ctx))
      | .ok ps =>
        .ok (.probeContextInjector op prm kw f, d,
             ctxInject f kw (op.applyP d ps) (.record r))) = _
    rw [hres]
    rfl
  · show [("Node " ++ toString (0 + 1) ++ "/" ++ op.name, L)] = _
    rw [show ("Node " ++ toString (0 + 1) ++ "/") = "Node 1/" from by decide]

/-- C4 amended witness: the concrete probe with no keyword collects its
value into the reported ledger, and with a keyword injects it into the
context. -/
theorem probe_variant_amended_witness :
    node_factory ⟨OpRef.probe probeW, [], none, id⟩ =
      (.probeResultCollector probeW [] [] id : Node Cls) ∧
    node_factory ⟨OpRef.probe probeW, [], some "mock_keyword", id⟩ =
      (.probeContextInjector probeW [] "mock_keyword" id : Node Cls) ∧
    nodeDirect tmW (.probeResultCollector probeW [] [] id)
      (DataV.scalar Cls.img 5) (.record []) =
      .ok (.probeResultCollector probeW []
            ([] ++ [probeW.applyP (DataV.scalar Cls.img 5) []]) id,
           DataV.scalar Cls.img 5, .record (id [])) ∧
    nodeDirect tmW (.probeContextInjector probeW [] "mock_keyword" id)
      (DataV.scalar Cls.img 5) (.record []) =
      .ok (.probeContextInjector probeW [] "mock_keyword" id,
           DataV.scalar Cls.img 5,
           .record (Record.setVal (id ([] : Record)) "mock_keyword"
             (probeW.applyP (DataV.scalar Cls.img 5) []))) ∧
    getProbeResults
        ⟨([.probeContextInjector probeW [] "mock_keyword" id] :
          List (Node Cls))⟩ = [] ∧
    getProbeResults
        ⟨([.probeResultCollector probeW [] [] id] : List (Node Cls))⟩ =
      [("Node 1/" ++ probeW.name, [])] :=
  probe_variant_amended tmW probeW [] "mock_keyword" id []
    (DataV.scalar Cls.img 5) [] [] rfl

end Claims

end Semantiva
